import Mathlib

/-!
Verification of the s3opt scan-and-repair engine (`s3opt/analyser.py`,
`s3opt/pipeline.py`, `s3opt/util.py`) against its specification.

The embedding is shallow: each Python method becomes a Lean function over an
explicit state.  Byte strings are `List Nat`, the per-analyser statistics are
a `Stats` record, and every mutating store operation (metadata rewrite,
content write) is recorded as an `Effect` value instead of performed, so that
theorems can talk about which mutations a code path emits.  External
collaborators (boto keys, the gzip codec, subprocess execution, MIME
inference) are parameters of the functions that call them, mirroring the
spec's "external collaborator" boundary.
-/

namespace S3Opt

/-- Per-analyser statistics.  `total`, `problematic`, `changed` are the
counters of `Analyser.__init__`/`Analyser.start`; `totalSize` and
`totalSaved` embed the `ContentSizeOptimiser` accumulators `_total_size`
and `_total_saved` (`totalSaved` is an `Int` because the Python value
`len(original) - len(optimised)` is a signed difference). -/
structure Stats where
  total : Nat
  problematic : Nat
  changed : Nat
  totalSize : Nat
  totalSaved : Int
deriving Repr, DecidableEq

/-- The all-zero statistics record (the state of a freshly constructed
analyser). -/
def Stats.zero : Stats := ⟨0, 0, 0, 0, 0⟩

/-- Componentwise sum of two statistics records (a proof device used to show
that each `analyse` step adds a state-independent increment). -/
def Stats.add (s t : Stats) : Stats :=
  ⟨s.total + t.total, s.problematic + t.problematic, s.changed + t.changed,
   s.totalSize + t.totalSize, s.totalSaved + t.totalSaved⟩

/-- A boto key handle as the analysers see it: the object key string, the
headers the code reads (`cache_control`, `content_type`, `content_encoding`,
`content_disposition`, `content_language`, each `none` when the header is
absent), the raw stored bytes, and whether the object is a store-level
redirect marker (present on the handle; the source never consults it). -/
structure Key where
  key : String
  cache_control : Option String
  content_type : Option String
  content_encoding : Option String
  content_disposition : Option String
  content_language : Option String
  redirect : Bool
  storedContent : List Nat
deriving Repr, DecidableEq

/-- A mutating store operation emitted by an analyser.
`changeMetadata k h v` records `util.change_key_metadata(key, h, v)` (the
copy-with-metadata rewrite preserving the other headers and the ACL);
`putContent k enc payload stored` records `util.set_key_content(key, payload)`
performed while the handle's content-encoding is `enc`: `payload` is the
argument passed in and `stored` the bytes actually persisted after the
encoding-aware write path. -/
inductive Effect where
  | changeMetadata (keyName headerName : String) (value : Option String)
  | putContent (keyName : String) (encoding : Option String)
      (payload stored : List Nat)
deriving Repr, DecidableEq

/-- `util.get_key_content`: read the body, inflating through the external
gzip codec `gunz` when the handle's Content-Encoding is `"gzip"`. -/
def get_key_content (gunz : List Nat → List Nat) (k : Key) : List Nat :=
  if k.content_encoding = some "gzip" then gunz k.storedContent
  else k.storedContent

/-- The bytes `util.set_key_content` persists: the payload is compressed
through the external gzip codec `gz` when the handle's Content-Encoding is
`"gzip"`, otherwise stored as given (headers and ACL are preserved by the
write; that preservation is part of the `Effect.putContent` record). -/
def set_key_content_stored (gz : List Nat → List Nat) (k : Key)
    (content : List Nat) : List Nat :=
  if k.content_encoding = some "gzip" then gz content else content

/-- Outcome of `subprocess.check_call` on the external optimiser binary:
either the process succeeded and the temp file now holds `output`, or it
exited nonzero (`CalledProcessError`). -/
inductive ExecResult where
  | ok (output : List Nat)
  | calledProcessError
deriving Repr, DecidableEq

/-- `util.optimise_external`: run the external command on the content via a
temp file; a `CalledProcessError` is caught and logged and `None` is
returned, otherwise the transformed file content is returned. -/
def optimise_external (exec : List String → List Nat → ExecResult)
    (content : List Nat) (cmd_args : List String) : Option (List Nat) :=
  match exec cmd_args content with
  | .calledProcessError => none
  | .ok output => some output

/-- `JpegOptimiser.optimise_content`'s command line: jpegoptim, plus a
`--max` cap when the configured max quality is below 100. -/
def jpegCmdArgs (max_quality : Int) : List String :=
  ["jpegoptim", "--quiet", "--strip-all", "--all-progressive"] ++
    (if max_quality < 100 then ["--max=" ++ toString max_quality] else [])

/-- `PngOptimiser.optimise_content`'s command line. -/
def pngCmdArgs : List String := ["optipng", "-quiet", "-strip", "all"]

/-- `ContentSizeOptimiser.min_compression_save` (class attribute). -/
def min_compression_save : Int := 1000

/-- `ContentSizeOptimiser.min_compression_save_percentage` (class
attribute).  Percentages are exact rationals because `analyser.py` uses
Python 3 true division (`from __future__ import division`). -/
def min_compression_save_percentage : ℚ := 10

/-- `ContentSizeOptimiser.verify_content`: accumulate the original size,
compute the absolute and percentage saving of the candidate, and accept
(return `false` = problematic, accumulating the saving) exactly when the
saving exceeds either threshold; otherwise reject (return `true`). -/
def verify_content (s : Stats) (original_content optimised_content : List Nat) :
    Stats × Bool :=
  let s1 := { s with totalSize := s.totalSize + original_content.length }
  let save : Int :=
    (original_content.length : Int) - (optimised_content.length : Int)
  let save_percentage : ℚ :=
    (save : ℚ) / (original_content.length : ℚ) * 100
  if min_compression_save < save ∨
      min_compression_save_percentage < save_percentage then
    ({ s1 with totalSaved := s1.totalSaved + save }, false)
  else
    (s1, true)

/-- `CacheControlAnalyser.__init__`: the desired Cache-Control header value
built from the configured max-age and the optional visibility word
(`extra`). -/
def cacheControlValue (max_age : Int) (extra : Option String) : String :=
  (match extra with
   | some e => e ++ ", "
   | none => "") ++
  (if max_age ≤ 0 then "no-cache" else "max-age=" ++ toString max_age)

/-- `CacheControlAnalyser.verify`: the live header must equal the desired
value (an absent header never equals it). -/
def CacheControlAnalyser.verify (cache_control : String) (k : Key) : Bool :=
  k.cache_control = some cache_control

/-- `CacheControlAnalyser.optimise`: rewrite the Cache-Control header via
`util.change_key_metadata`. -/
def CacheControlAnalyser.optimiseEffects (cache_control : String) (k : Key) :
    List Effect :=
  [Effect.changeMetadata k.key "Cache-Control" (some cache_control)]

/-- `ContentTypeAnalyser.verify`: infer the MIME type from the key string
via the external `mimetypes` table `guess`; when inference yields nothing
verification always succeeds, otherwise the live header must equal the
inferred type. -/
def ContentTypeAnalyser.verify (guess : String → Option String) (k : Key) :
    Bool :=
  match guess k.key with
  | none => true
  | some content_type => k.content_type = some content_type

/-- `ContentTypeAnalyser.optimise`: rewrite the Content-Type header to the
inferred type via `util.change_key_metadata`. -/
def ContentTypeAnalyser.optimiseEffects (guess : String → Option String)
    (k : Key) : List Effect :=
  [Effect.changeMetadata k.key "Content-Type" (guess k.key)]

/-- `Analyser.analyse` (the split verify/optimise protocol of the header
analysers): count the object, and when verification fails count it
problematic and, outside dry-run, perform the repair and count it
changed. -/
def analyseStep (verify : Key → Bool) (optimiseEffects : Key → List Effect)
    (dry_run : Bool) (s : Stats) (k : Key) : Stats × List Effect :=
  let s1 := { s with total := s.total + 1 }
  if verify k then (s1, [])
  else
    let s2 := { s1 with problematic := s1.problematic + 1 }
    if dry_run then (s2, [])
    else ({ s2 with changed := s2.changed + 1 }, optimiseEffects k)

/-- `ContentOptimiser.analyse` fused with
`ContentSizeOptimiser.verify_content` (its only implementation): count the
object; skip empty bodies; compute the candidate via `optimise_content`
(`none` embeds a swallowed transform failure, and an empty candidate is
falsy in Python); run the size-based verification; on acceptance count
problematic and, outside dry-run, persist the candidate through
`util.set_key_content` and count changed. -/
def contentOptimiserAnalyse (gunz gz : List Nat → List Nat)
    (optimise_content : List Nat → Option (List Nat))
    (dry_run : Bool) (s : Stats) (k : Key) : Stats × List Effect :=
  let s1 := { s with total := s.total + 1 }
  let original_content := get_key_content gunz k
  if original_content = [] then (s1, [])
  else
    match optimise_content original_content with
    | none => (s1, [])
    | some optimised_content =>
      if optimised_content = [] then (s1, [])
      else
        let vc := verify_content s1 original_content optimised_content
        if vc.2 then (vc.1, [])
        else
          let s2 := { vc.1 with problematic := vc.1.problematic + 1 }
          if dry_run then (s2, [])
          else
            ({ s2 with changed := s2.changed + 1 },
             [Effect.putContent k.key k.content_encoding optimised_content
                (set_key_content_stored gz k optimised_content)])

/-- Modelled from the spec: `GzipAnalyser.analyse` as the spec (and the
method's own remaining lines and in-method comment) intend it, with the
trial compression as a total codec `gz`: count the object; return at once
when it is already transport-gzip-encoded; skip empty bodies;
trial-compress via the gzip codec; run the size-based verification on the
trial; on acceptance count problematic and, outside dry-run, set the
handle's content-encoding to `"gzip"` and write the ORIGINAL bytes through
`util.set_key_content` (which re-gzips them on the way out), then count
changed.  NOTE: on the source as given the trial-compression call
`util.gzip(original_content)` actually raises `AttributeError` — `util.py`
imports only `GzipFile` and defines no module-level `gzip` — so the
accept/persist path below never executes; that real behaviour is embedded
separately in `gzipAnalyseRun`.  This intended-behaviour model is kept so
the scan-level invariants can quantify over every analyser variant (they
hold of the real, crashing variant a fortiori). -/
def gzipAnalyse (gunz gz : List Nat → List Nat)
    (dry_run : Bool) (s : Stats) (k : Key) : Stats × List Effect :=
  let s1 := { s with total := s.total + 1 }
  if k.content_encoding = some "gzip" then (s1, [])
  else
    let original_content := get_key_content gunz k
    if original_content = [] then (s1, [])
    else
      let optimised_content := gz original_content
      if optimised_content = [] then (s1, [])
      else
        let vc := verify_content s1 original_content optimised_content
        if vc.2 then (vc.1, [])
        else
          let s2 := { vc.1 with problematic := vc.1.problematic + 1 }
          if dry_run then (s2, [])
          else
            let key2 := { k with content_encoding := some "gzip" }
            ({ s2 with changed := s2.changed + 1 },
             [Effect.putContent key2.key key2.content_encoding original_content
                (set_key_content_stored gz key2 original_content)])

/-- `GzipAnalyser.analyse` as the source actually executes: `total` is
incremented, an already transport-gzip-encoded object returns normally, an
empty body returns normally, and EVERY other object reaches
`optimised_content = util.gzip(original_content)` (analyser.py:214), whose
attribute lookup raises `AttributeError` — `util.py` does only
`from gzip import GzipFile` and defines no module-level `gzip` (the
`with ... as gzip:` names inside `get_key_content`/`set_key_content` are
function-local).  Nothing in `analyser.py` or `pipeline.py` catches the
exception.  The result is either a normal return with the emitted effects,
or `Except.error` carrying the uncaught exception's message together with
the statistics as already mutated when it was raised. -/
def gzipAnalyseRun (gunz : List Nat → List Nat) (dry_run : Bool) (s : Stats)
    (k : Key) : Except (String × Stats) (Stats × List Effect) :=
  let s1 := { s with total := s.total + 1 }
  if k.content_encoding = some "gzip" then .ok (s1, [])
  else
    let original_content := get_key_content gunz k
    if original_content = [] then .ok (s1, [])
    else
      .error ("AttributeError: module s3opt.util has no attribute gzip", s1)

/-- `DecoratorAnalyser.analyse`: outside dry-run run the wrapped function
(whose store mutations are `func k`); it touches no statistics. -/
def decoratorAnalyse (func : Key → List Effect) (dry_run : Bool)
    (s : Stats) (k : Key) : Stats × List Effect :=
  if dry_run then (s, []) else (s, func k)

/-- The closed set of analyser variants of `analyser.py`.  `cacheControl`
holds the precomputed desired header (built by `cacheControlValue`),
`contentType` the external MIME table, `contentSize` the external-transform
outcome used as `optimise_content` (JPEG and PNG differ only in that
function), `gzipKind` the gzip analyser and `decorator` a wrapped
function. -/
inductive AnalyserKind where
  | cacheControl (cache_control : String)
  | contentType (guess : String → Option String)
  | contentSize (optimise_content : List Nat → Option (List Nat))
  | gzipKind
  | decorator (func : Key → List Effect)

/-- One `analyse` invocation of any analyser variant. -/
def analyseDispatch (gunz gz : List Nat → List Nat) (a : AnalyserKind)
    (dry_run : Bool) (s : Stats) (k : Key) : Stats × List Effect :=
  match a with
  | .cacheControl cc =>
      analyseStep (CacheControlAnalyser.verify cc)
        (CacheControlAnalyser.optimiseEffects cc) dry_run s k
  | .contentType guess =>
      analyseStep (ContentTypeAnalyser.verify guess)
        (ContentTypeAnalyser.optimiseEffects guess) dry_run s k
  | .contentSize optimise_content =>
      contentOptimiserAnalyse gunz gz optimise_content dry_run s k
  | .gzipKind => gzipAnalyse gunz gz dry_run s k
  | .decorator func => decoratorAnalyse func dry_run s k

/-- `Analyser.start`: reset `total`, `problematic` and `changed` at scan
begin.  (It is inherited unchanged by every subclass; the
`ContentSizeOptimiser` accumulators are not touched.) -/
def Analyser.start (s : Stats) : Stats :=
  { s with total := 0, problematic := 0, changed := 0 }

/-- One analyser's view of a scan: the sequence of key handles it is invoked
on, processed in order with a fixed dry-run flag, accumulating statistics
and emitted store mutations. -/
def runKeys (gunz gz : List Nat → List Nat) (a : AnalyserKind)
    (dry_run : Bool) (s : Stats) : List Key → Stats × List Effect
  | [] => (s, [])
  | k :: ks =>
    let step := analyseDispatch gunz gz a dry_run s k
    let rest := runKeys gunz gz a dry_run step.1 ks
    (rest.1, step.2 ++ rest.2)

/-- Like `runKeys` but with a per-invocation dry-run flag, tracking only the
statistics (used for counter invariants). -/
def runSeq (gunz gz : List Nat → List Nat) (a : AnalyserKind) :
    Stats → List (Key × Bool) → Stats
  | s, [] => s
  | s, (k, d) :: rest =>
      runSeq gunz gz a (analyseDispatch gunz gz a d s k).1 rest

/-- Abstract syntax of the compiled key patterns (`re.compile` results) the
pipeline's rule table holds: the regular-expression constructs used by the
registration patterns — literal characters, `.`, concatenation, alternation
(`|`, and `?` as alternation with the empty pattern) and `*`. -/
inductive Reg where
  | fail
  | eps
  | chr (c : Char)
  | dot
  | seq (r1 r2 : Reg)
  | alt (r1 r2 : Reg)
  | star (r : Reg)
deriving Repr, DecidableEq

/-- Single-character matching under the compiled case-sensitivity flag:
with `re.IGNORECASE` characters compare modulo case. -/
def charMatch (ic : Bool) (p x : Char) : Bool :=
  if ic then decide (p.toLower = x.toLower) else decide (p = x)

/-- Whether a pattern accepts the empty string. -/
def Reg.nullable : Reg → Bool
  | .fail => false
  | .eps => true
  | .chr _ => false
  | .dot => false
  | .seq r1 r2 => r1.nullable && r2.nullable
  | .alt r1 r2 => r1.nullable || r2.nullable
  | .star _ => true

/-- Brzozowski derivative of a pattern by one character. -/
def Reg.deriv (ic : Bool) : Reg → Char → Reg
  | .fail, _ => .fail
  | .eps, _ => .fail
  | .chr p, x => if charMatch ic p x then .eps else .fail
  | .dot, _ => .eps
  | .seq r1 r2, x =>
      if r1.nullable then
        .alt (.seq (Reg.deriv ic r1 x) r2) (Reg.deriv ic r2 x)
      else
        .seq (Reg.deriv ic r1 x) r2
  | .alt r1 r2, x => .alt (Reg.deriv ic r1 x) (Reg.deriv ic r2 x)
  | .star r, x => .seq (Reg.deriv ic r x) (.star r)

/-- Whole-string acceptance via derivatives. -/
def Reg.rmatch (ic : Bool) : Reg → List Char → Bool
  | r, [] => r.nullable
  | r, x :: s => Reg.rmatch ic (Reg.deriv ic r x) s

/-- The semantics of Python's `pattern.match(key)` as `Pipeline.analyse_key`
uses it: the match is anchored at the start of the key and succeeds as soon
as the pattern is satisfied, without having to reach the end of the key
(prefix-style match). -/
def Reg.pmatch (ic : Bool) : Reg → List Char → Bool
  | r, [] => r.nullable
  | r, x :: s => r.nullable || Reg.pmatch ic (Reg.deriv ic r x) s

/-- Declarative matching relation: `Matches ic r s` holds iff pattern `r`
matches exactly the character list `s` under case flag `ic`. -/
inductive Matches (ic : Bool) : Reg → List Char → Prop where
  | eps : Matches ic .eps []
  | chr {p x : Char} : charMatch ic p x = true → Matches ic (.chr p) [x]
  | dot (x : Char) : Matches ic .dot [x]
  | seq {r1 r2 : Reg} {s1 s2 : List Char} :
      Matches ic r1 s1 → Matches ic r2 s2 → Matches ic (.seq r1 r2) (s1 ++ s2)
  | altL {r1 r2 : Reg} {s : List Char} :
      Matches ic r1 s → Matches ic (.alt r1 r2) s
  | altR {r1 r2 : Reg} {s : List Char} :
      Matches ic r2 s → Matches ic (.alt r1 r2) s
  | starNil {r : Reg} : Matches ic (.star r) []
  | starApp {r : Reg} {s1 s2 : List Char} :
      Matches ic r s1 → Matches ic (.star r) s2 →
      Matches ic (.star r) (s1 ++ s2)

/-- One rule of the pipeline's ordered rule table: the compiled pattern,
its case flag and the registered analyser. -/
structure CompiledRule (α : Type) where
  pattern : Reg
  ignoreCase : Bool
  analyser : α
deriving Repr, DecidableEq

/-- `Pipeline.append` with an explicit `ignore_case` flag: compile the
pattern (the compiled object pairs the pattern with its case flag) and
append the rule to the END of `self._pipeline`. -/
def Pipeline.append {α : Type} (pipe : List (CompiledRule α)) (analyser : α)
    (pattern : Reg) (ignore_case : Bool) : List (CompiledRule α) :=
  pipe ++ [⟨pattern, ignore_case, analyser⟩]

/-- `Pipeline.append` as called without the flag: `ignore_case=True` is the
default, so patterns are compiled case-insensitively. -/
def Pipeline.appendDefault {α : Type} (pipe : List (CompiledRule α))
    (analyser : α) (pattern : Reg) : List (CompiledRule α) :=
  Pipeline.append pipe analyser pattern true

/-- The ordered list of analysers `Pipeline.analyse_key` invokes on a key:
the for-loop walks `self._pipeline` in registration order and applies EVERY
rule whose compiled pattern `match`es the key string (re-fetching the key
handle before each invocation). -/
def analyse_key_applied {α : Type} : List (CompiledRule α) → List Char → List α
  | [], _ => []
  | rl :: rls, key =>
    if Reg.pmatch rl.ignoreCase rl.pattern key then
      rl.analyser :: analyse_key_applied rls key
    else
      analyse_key_applied rls key

/-! ### Statistics additivity: every `analyse` step adds a state-independent
increment to the statistics, and emits state-independent effects. -/

theorem verify_content_snd (s : Stats) (o c : List Nat) :
    (verify_content s o c).2 = (verify_content Stats.zero o c).2 := by
  simp only [verify_content]
  split <;> rfl

theorem verify_content_fst (s : Stats) (o c : List Nat) :
    (verify_content s o c).1 = s.add (verify_content Stats.zero o c).1 := by
  simp only [verify_content]
  split <;> simp [Stats.add, Stats.zero]

theorem analyseStep_fst (v : Key → Bool) (oe : Key → List Effect)
    (d : Bool) (s : Stats) (k : Key) :
    (analyseStep v oe d s k).1 = s.add (analyseStep v oe d Stats.zero k).1 := by
  simp only [analyseStep]
  split
  · simp [Stats.add, Stats.zero]
  · split <;> simp [Stats.add, Stats.zero]

theorem analyseStep_snd (v : Key → Bool) (oe : Key → List Effect)
    (d : Bool) (s : Stats) (k : Key) :
    (analyseStep v oe d s k).2 = (analyseStep v oe d Stats.zero k).2 := by
  simp only [analyseStep]
  split
  · rfl
  · split <;> rfl

theorem contentOptimiserAnalyse_fst (gunz gz : List Nat → List Nat)
    (oc : List Nat → Option (List Nat)) (d : Bool) (s : Stats) (k : Key) :
    (contentOptimiserAnalyse gunz gz oc d s k).1 =
      s.add (contentOptimiserAnalyse gunz gz oc d Stats.zero k).1 := by
  simp only [contentOptimiserAnalyse]
  split
  · simp [Stats.add, Stats.zero]
  · split
    · simp [Stats.add, Stats.zero]
    · next c heq =>
      split
      · simp [Stats.add, Stats.zero]
      · rw [verify_content_snd { s with total := s.total + 1 },
            verify_content_snd { Stats.zero with total := Stats.zero.total + 1 }]
        split
        · rw [verify_content_fst { s with total := s.total + 1 },
              verify_content_fst { Stats.zero with total := Stats.zero.total + 1 }]
          simp [Stats.add, Stats.zero, Nat.add_assoc, Int.add_assoc]
        · split <;>
          · rw [verify_content_fst { s with total := s.total + 1 },
                verify_content_fst { Stats.zero with total := Stats.zero.total + 1 }]
            simp [Stats.add, Stats.zero, Nat.add_assoc, Int.add_assoc]

theorem contentOptimiserAnalyse_snd (gunz gz : List Nat → List Nat)
    (oc : List Nat → Option (List Nat)) (d : Bool) (s : Stats) (k : Key) :
    (contentOptimiserAnalyse gunz gz oc d s k).2 =
      (contentOptimiserAnalyse gunz gz oc d Stats.zero k).2 := by
  simp only [contentOptimiserAnalyse]
  split
  · rfl
  · split
    · rfl
    · split
      · rfl
      · rw [verify_content_snd { s with total := s.total + 1 },
            verify_content_snd { Stats.zero with total := Stats.zero.total + 1 }]
        split
        · rfl
        · split <;> rfl

theorem gzipAnalyse_fst (gunz gz : List Nat → List Nat)
    (d : Bool) (s : Stats) (k : Key) :
    (gzipAnalyse gunz gz d s k).1 = s.add (gzipAnalyse gunz gz d Stats.zero k).1 := by
  simp only [gzipAnalyse]
  split
  · simp [Stats.add, Stats.zero]
  · split
    · simp [Stats.add, Stats.zero]
    · split
      · simp [Stats.add, Stats.zero]
      · rw [verify_content_snd { s with total := s.total + 1 },
            verify_content_snd { Stats.zero with total := Stats.zero.total + 1 }]
        split
        · rw [verify_content_fst { s with total := s.total + 1 },
              verify_content_fst { Stats.zero with total := Stats.zero.total + 1 }]
          simp [Stats.add, Stats.zero, Nat.add_assoc, Int.add_assoc]
        · split <;>
          · rw [verify_content_fst { s with total := s.total + 1 },
                verify_content_fst { Stats.zero with total := Stats.zero.total + 1 }]
            simp [Stats.add, Stats.zero, Nat.add_assoc, Int.add_assoc]

theorem gzipAnalyse_snd (gunz gz : List Nat → List Nat)
    (d : Bool) (s : Stats) (k : Key) :
    (gzipAnalyse gunz gz d s k).2 = (gzipAnalyse gunz gz d Stats.zero k).2 := by
  simp only [gzipAnalyse]
  split
  · rfl
  · split
    · rfl
    · split
      · rfl
      · rw [verify_content_snd { s with total := s.total + 1 },
            verify_content_snd { Stats.zero with total := Stats.zero.total + 1 }]
        split
        · rfl
        · split <;> rfl

/-- Every `analyse` step's statistics update is additive: the step from an
arbitrary prior state equals the prior state plus the step from the zero
state, and the emitted effects do not depend on the prior statistics. -/
theorem analyseDispatch_add (gunz gz : List Nat → List Nat) (a : AnalyserKind)
    (d : Bool) (s : Stats) (k : Key) :
    (analyseDispatch gunz gz a d s k).1 =
        s.add (analyseDispatch gunz gz a d Stats.zero k).1 ∧
      (analyseDispatch gunz gz a d s k).2 =
        (analyseDispatch gunz gz a d Stats.zero k).2 := by
  cases a with
  | cacheControl cc => exact ⟨analyseStep_fst _ _ _ _ _, analyseStep_snd _ _ _ _ _⟩
  | contentType g => exact ⟨analyseStep_fst _ _ _ _ _, analyseStep_snd _ _ _ _ _⟩
  | contentSize oc =>
      exact ⟨contentOptimiserAnalyse_fst _ _ _ _ _ _,
             contentOptimiserAnalyse_snd _ _ _ _ _ _⟩
  | gzipKind => exact ⟨gzipAnalyse_fst _ _ _ _ _, gzipAnalyse_snd _ _ _ _ _⟩
  | decorator f =>
      refine ⟨?_, ?_⟩ <;> simp [analyseDispatch, decoratorAnalyse] <;>
        split <;> simp [Stats.add, Stats.zero]

theorem verify_content_total (s : Stats) (o c : List Nat) :
    (verify_content s o c).1.total = s.total := by
  simp only [verify_content]; split <;> rfl

theorem verify_content_problematic (s : Stats) (o c : List Nat) :
    (verify_content s o c).1.problematic = s.problematic := by
  simp only [verify_content]; split <;> rfl

theorem verify_content_changed (s : Stats) (o c : List Nat) :
    (verify_content s o c).1.changed = s.changed := by
  simp only [verify_content]; split <;> rfl

theorem verify_content_totalSize (s : Stats) (o c : List Nat) :
    (verify_content s o c).1.totalSize = s.totalSize + o.length := by
  simp only [verify_content]; split <;> rfl

theorem verify_content_totalSaved (s : Stats) (o c : List Nat) :
    (verify_content s o c).1.totalSaved = s.totalSaved ∨
      (verify_content s o c).1.totalSaved =
        s.totalSaved + ((o.length : Int) - (c.length : Int)) := by
  simp only [verify_content]
  split
  · right; rfl
  · left; rfl

/-- In dry-run mode an `analyse` step emits no store mutation, leaves
`changed` untouched, and updates `total`, `problematic`, `totalSize` and
`totalSaved` exactly as the non-dry-run step does. -/
theorem analyseStep_dry (v : Key → Bool) (oe : Key → List Effect)
    (s : Stats) (k : Key) :
    (analyseStep v oe true s k).2 = [] ∧
    (analyseStep v oe true s k).1.changed = s.changed ∧
    (analyseStep v oe true s k).1.total = (analyseStep v oe false s k).1.total ∧
    (analyseStep v oe true s k).1.problematic =
      (analyseStep v oe false s k).1.problematic ∧
    (analyseStep v oe true s k).1.totalSize =
      (analyseStep v oe false s k).1.totalSize ∧
    (analyseStep v oe true s k).1.totalSaved =
      (analyseStep v oe false s k).1.totalSaved := by
  simp only [analyseStep]
  split <;> simp

theorem contentOptimiserAnalyse_dry (gunz gz : List Nat → List Nat)
    (oc : List Nat → Option (List Nat)) (s : Stats) (k : Key) :
    (contentOptimiserAnalyse gunz gz oc true s k).2 = [] ∧
    (contentOptimiserAnalyse gunz gz oc true s k).1.changed = s.changed ∧
    (contentOptimiserAnalyse gunz gz oc true s k).1.total =
      (contentOptimiserAnalyse gunz gz oc false s k).1.total ∧
    (contentOptimiserAnalyse gunz gz oc true s k).1.problematic =
      (contentOptimiserAnalyse gunz gz oc false s k).1.problematic ∧
    (contentOptimiserAnalyse gunz gz oc true s k).1.totalSize =
      (contentOptimiserAnalyse gunz gz oc false s k).1.totalSize ∧
    (contentOptimiserAnalyse gunz gz oc true s k).1.totalSaved =
      (contentOptimiserAnalyse gunz gz oc false s k).1.totalSaved := by
  simp only [contentOptimiserAnalyse]
  split
  · simp
  · split
    · simp
    · split
      · simp
      · split <;> simp [verify_content_changed]

theorem gzipAnalyse_dry (gunz gz : List Nat → List Nat) (s : Stats) (k : Key) :
    (gzipAnalyse gunz gz true s k).2 = [] ∧
    (gzipAnalyse gunz gz true s k).1.changed = s.changed ∧
    (gzipAnalyse gunz gz true s k).1.total =
      (gzipAnalyse gunz gz false s k).1.total ∧
    (gzipAnalyse gunz gz true s k).1.problematic =
      (gzipAnalyse gunz gz false s k).1.problematic ∧
    (gzipAnalyse gunz gz true s k).1.totalSize =
      (gzipAnalyse gunz gz false s k).1.totalSize ∧
    (gzipAnalyse gunz gz true s k).1.totalSaved =
      (gzipAnalyse gunz gz false s k).1.totalSaved := by
  simp only [gzipAnalyse]
  split
  · simp
  · split
    · simp
    · split
      · simp
      · split <;> simp [verify_content_changed]

/-- Dispatch form of the dry-run step facts, for every analyser variant. -/
theorem analyseDispatch_dry (gunz gz : List Nat → List Nat) (a : AnalyserKind)
    (s : Stats) (k : Key) :
    (analyseDispatch gunz gz a true s k).2 = [] ∧
    (analyseDispatch gunz gz a true s k).1.changed = s.changed ∧
    (analyseDispatch gunz gz a true s k).1.total =
      (analyseDispatch gunz gz a false s k).1.total ∧
    (analyseDispatch gunz gz a true s k).1.problematic =
      (analyseDispatch gunz gz a false s k).1.problematic ∧
    (analyseDispatch gunz gz a true s k).1.totalSize =
      (analyseDispatch gunz gz a false s k).1.totalSize ∧
    (analyseDispatch gunz gz a true s k).1.totalSaved =
      (analyseDispatch gunz gz a false s k).1.totalSaved := by
  cases a with
  | cacheControl cc => exact analyseStep_dry _ _ _ _
  | contentType g => exact analyseStep_dry _ _ _ _
  | contentSize oc => exact contentOptimiserAnalyse_dry _ _ _ _ _
  | gzipKind => exact gzipAnalyse_dry _ _ _ _
  | decorator f => simp [analyseDispatch, decoratorAnalyse]

/-- A single `analyse` step from the zero statistics increments `changed` at
most as much as `problematic`, and `problematic` at most as much as
`total`. -/
theorem analyseDispatch_zero_bounds (gunz gz : List Nat → List Nat)
    (a : AnalyserKind) (d : Bool) (k : Key) :
    (analyseDispatch gunz gz a d Stats.zero k).1.changed ≤
        (analyseDispatch gunz gz a d Stats.zero k).1.problematic ∧
      (analyseDispatch gunz gz a d Stats.zero k).1.problematic ≤
        (analyseDispatch gunz gz a d Stats.zero k).1.total := by
  cases a with
  | cacheControl cc =>
      simp only [analyseDispatch, analyseStep]
      split
      · simp [Stats.zero]
      · split <;> simp [Stats.zero]
  | contentType g =>
      simp only [analyseDispatch, analyseStep]
      split
      · simp [Stats.zero]
      · split <;> simp [Stats.zero]
  | contentSize oc =>
      simp only [analyseDispatch, contentOptimiserAnalyse]
      split
      · simp [Stats.zero]
      · split
        · simp [Stats.zero]
        · split
          · simp [Stats.zero]
          · split
            · simp [Stats.zero, verify_content_total, verify_content_problematic,
                verify_content_changed]
            · split <;>
                simp [Stats.zero, verify_content_total, verify_content_problematic,
                  verify_content_changed]
  | gzipKind =>
      simp only [analyseDispatch, gzipAnalyse]
      split
      · simp [Stats.zero]
      · split
        · simp [Stats.zero]
        · split
          · simp [Stats.zero]
          · split
            · simp [Stats.zero, verify_content_total, verify_content_problematic,
                verify_content_changed]
            · split <;>
                simp [Stats.zero, verify_content_total, verify_content_problematic,
                  verify_content_changed]
  | decorator f =>
      simp only [analyseDispatch, decoratorAnalyse]
      split <;> simp [Stats.zero]

theorem Stats.add_zero (s : Stats) : s.add Stats.zero = s := by
  cases s; simp [Stats.add, Stats.zero]

theorem Stats.zero_add (s : Stats) : Stats.zero.add s = s := by
  cases s; simp [Stats.add, Stats.zero]

theorem Stats.add_assoc (s t u : Stats) : (s.add t).add u = s.add (t.add u) := by
  cases s; cases t; cases u
  simp [Stats.add, Nat.add_assoc, Int.add_assoc]

/-- A whole scan's statistics update is additive in the starting state. -/
theorem runKeys_fst (gunz gz : List Nat → List Nat) (a : AnalyserKind)
    (d : Bool) (s : Stats) (ks : List Key) :
    (runKeys gunz gz a d s ks).1 = s.add (runKeys gunz gz a d Stats.zero ks).1 := by
  induction ks generalizing s with
  | nil => simp [runKeys, Stats.add_zero]
  | cons k ks ih =>
    simp only [runKeys]
    rw [ih (analyseDispatch gunz gz a d s k).1,
        ih (analyseDispatch gunz gz a d Stats.zero k).1,
        (analyseDispatch_add gunz gz a d s k).1, Stats.add_assoc]

/-- A whole scan's emitted effects do not depend on the starting
statistics. -/
theorem runKeys_snd (gunz gz : List Nat → List Nat) (a : AnalyserKind)
    (d : Bool) (s : Stats) (ks : List Key) :
    (runKeys gunz gz a d s ks).2 = (runKeys gunz gz a d Stats.zero ks).2 := by
  induction ks generalizing s with
  | nil => rfl
  | cons k ks ih =>
    simp only [runKeys]
    rw [ih (analyseDispatch gunz gz a d s k).1,
        ih (analyseDispatch gunz gz a d Stats.zero k).1,
        (analyseDispatch_add gunz gz a d s k).2]

/-! ### Claim theorems -/

/-- C1: for every content-size analyser with the default thresholds
(1000 bytes, 10%) and every non-empty original and candidate content,
`verify_content` returns `true` (REJECT: the object is not counted
problematic) exactly when the absolute saving is at most 1000 bytes AND the
percentage saving is at most 10%, and returns `false` (ACCEPT: counted
problematic) otherwise. -/
theorem C1_size_policy_reject_iff (s : Stats)
    (original_content optimised_content : List Nat)
    (horig : original_content ≠ []) (hopt : optimised_content ≠ []) :
    (verify_content s original_content optimised_content).2 = true ↔
      ((original_content.length : Int) - (optimised_content.length : Int) ≤ 1000 ∧
       ((((original_content.length : Int) - (optimised_content.length : Int) : Int)) : ℚ) /
          (original_content.length : ℚ) * 100 ≤ 10) := by
  simp only [verify_content, min_compression_save, min_compression_save_percentage]
  split
  next h =>
    simp only [Bool.false_eq_true, false_iff]
    rintro ⟨h1, h2⟩
    rcases h with h | h
    · omega
    · linarith
  next h =>
    simp only [true_iff]
    push_neg at h
    exact h

/-- C1 witness: original length 5000 with candidate length 4200 (800 bytes,
16%) is accepted, and original length 100000 with candidate length 99500
(500 bytes, 0.5%) is rejected. -/
theorem C1_size_policy_reject_iff_witness :
    (verify_content Stats.zero (List.replicate 5000 0) (List.replicate 4200 0)).2
        = false ∧
      (verify_content Stats.zero (List.replicate 100000 0)
          (List.replicate 99500 0)).2 = true := by
  have hne : ∀ n : Nat, 0 < n → List.replicate n (0 : Nat) ≠ [] := fun n hn => by
    apply List.length_pos.mp
    rw [List.length_replicate]
    omega
  constructor
  · have h := C1_size_policy_reject_iff Stats.zero (List.replicate 5000 0)
      (List.replicate 4200 0) (hne 5000 (by omega)) (hne 4200 (by omega))
    simp only [List.length_replicate] at h
    rw [Bool.eq_false_iff, Ne, h]
    rintro ⟨h1, h2⟩
    push_cast at h2
    norm_num at h2
  · have h := C1_size_policy_reject_iff Stats.zero (List.replicate 100000 0)
      (List.replicate 99500 0) (hne 100000 (by omega)) (hne 99500 (by omega))
    simp only [List.length_replicate] at h
    rw [h]
    constructor
    · norm_num
    · push_cast
      norm_num

/-- C4 counterexample: with configured max-age 0 and public visibility the
code builds `"public, no-cache"`, not `"public, max-age=0"` as the claim
(`N ≥ 0 ⇒ max-age=N`) requires. -/
theorem C4_cache_control_counterexample :
    cacheControlValue 0 (some "public") = "public, no-cache" ∧
      cacheControlValue 0 (some "public") ≠ "public, max-age=0" := by
  constructor
  · rfl
  · decide

/-- C4 amended: the desired Cache-Control value is
`"<visibility>, max-age=<N>"` whenever N > 0 and `"<visibility>, no-cache"`
whenever N ≤ 0 (the boundary N = 0 yields no-cache); in particular
N = 604800 with public visibility yields `"public, max-age=604800"` and
N = -1 yields `"<visibility>, no-cache"`. -/
theorem C4_cache_control_value (max_age : Int) (vis : String) :
    (0 < max_age →
      cacheControlValue max_age (some vis) =
        vis ++ ", max-age=" ++ toString max_age) ∧
    (max_age ≤ 0 →
      cacheControlValue max_age (some vis) = vis ++ ", no-cache") ∧
    cacheControlValue 604800 (some "public") = "public, max-age=604800" ∧
    cacheControlValue (-1) (some vis) = vis ++ ", no-cache" := by
  refine ⟨?_, ?_, ?_, ?_⟩
  · intro h
    simp only [cacheControlValue]
    rw [if_neg (by omega : ¬ max_age ≤ 0)]
    apply String.ext
    simp [String.data_append]
  · intro h
    simp only [cacheControlValue]
    rw [if_pos h]
    apply String.ext
    simp [String.data_append]
  · rfl
  · simp only [cacheControlValue]
    rw [if_pos (by omega : (-1 : Int) ≤ 0)]
    apply String.ext
    simp [String.data_append]

/-- C4 witness: the positive and non-positive branches of the amended claim
at N = 604800 and N = -1. -/
theorem C4_cache_control_value_witness :
    cacheControlValue 604800 (some "public") =
        "public" ++ ", max-age=" ++ toString (604800 : Int) ∧
      cacheControlValue (-1) (some "private") = "private" ++ ", no-cache" := by
  exact ⟨(C4_cache_control_value 604800 "public").1 (by omega),
         (C4_cache_control_value (-1) "private").2.1 (by omega)⟩

/-- C5 counterexample: after a scan that accepted one optimisation (original
1002 bytes, candidate 1 byte: 1001 bytes saved), `Analyser.start` leaves the
cumulative bytes-saved and total-size accumulators nonzero, so it does NOT
reset all accumulated statistics to zero. -/
theorem C5_start_counterexample :
    (Analyser.start
        (contentOptimiserAnalyse id id (fun _ => some [7]) false Stats.zero
          { key := "a.png", cache_control := none, content_type := none,
            content_encoding := none, content_disposition := none,
            content_language := none, redirect := false,
            storedContent := List.replicate 1002 0 }).1).totalSaved ≠ 0 ∧
      (Analyser.start
        (contentOptimiserAnalyse id id (fun _ => some [7]) false Stats.zero
          { key := "a.png", cache_control := none, content_type := none,
            content_encoding := none, content_disposition := none,
            content_language := none, redirect := false,
            storedContent := List.replicate 1002 0 }).1).totalSize ≠ 0 := by
  set_option maxRecDepth 100000 in decide

/-- C5 amended: `Analyser.start` resets `total`, `problematic` and `changed`
to zero at scan begin, but leaves the content-size accumulators (cumulative
bytes saved `_total_saved` and cumulative size `_total_size`) untouched, so
a later scan's end-of-scan accumulator reading still contains the value
carried over from before the reset. -/
theorem C5_start_resets_counters_only (gunz gz : List Nat → List Nat)
    (a : AnalyserKind) (d : Bool) (s : Stats) (ks : List Key) :
    (Analyser.start s).total = 0 ∧
    (Analyser.start s).problematic = 0 ∧
    (Analyser.start s).changed = 0 ∧
    (Analyser.start s).totalSize = s.totalSize ∧
    (Analyser.start s).totalSaved = s.totalSaved ∧
    (runKeys gunz gz a d (Analyser.start s) ks).1.totalSaved =
      s.totalSaved +
        (runKeys gunz gz a d (Analyser.start Stats.zero) ks).1.totalSaved := by
  refine ⟨rfl, rfl, rfl, rfl, rfl, ?_⟩
  rw [runKeys_fst gunz gz a d (Analyser.start s) ks,
      runKeys_fst gunz gz a d (Analyser.start Stats.zero) ks]
  simp [Analyser.start, Stats.add, Stats.zero]

/-- C6 counterexample: on a store-level redirect marker whose Cache-Control
header mismatches, `optimise` is NOT skipped: outside dry-run the metadata
rewrite is emitted and `changed` is incremented, contradicting the claimed
redirect special case. -/
theorem C6_redirect_counterexample :
    (analyseDispatch id id (.cacheControl "public, max-age=604800") false
        Stats.zero
        { key := "r", cache_control := none, content_type := none,
          content_encoding := none, content_disposition := none,
          content_language := none, redirect := true,
          storedContent := [] }).2 ≠ [] ∧
      (analyseDispatch id id (.cacheControl "public, max-age=604800") false
        Stats.zero
        { key := "r", cache_control := none, content_type := none,
          content_encoding := none, content_disposition := none,
          content_language := none, redirect := true,
          storedContent := [] }).1.changed = 1 := by
  decide

/-- C6 amended: the header analysers have no redirect special case: for
every redirect-marker object whose verification fails, outside dry-run the
object is counted problematic AND the metadata rewrite is performed and
counted changed, exactly as for any other object. -/
theorem C6_redirect_no_special_case (gunz gz : List Nat → List Nat)
    (cc : String) (guess : String → Option String) (k : Key) (s : Stats)
    (hred : k.redirect = true) :
    (CacheControlAnalyser.verify cc k = false →
      analyseDispatch gunz gz (.cacheControl cc) false s k =
        ({ s with
            total := s.total + 1
            problematic := s.problematic + 1
            changed := s.changed + 1 },
         [Effect.changeMetadata k.key "Cache-Control" (some cc)])) ∧
    (ContentTypeAnalyser.verify guess k = false →
      analyseDispatch gunz gz (.contentType guess) false s k =
        ({ s with
            total := s.total + 1
            problematic := s.problematic + 1
            changed := s.changed + 1 },
         [Effect.changeMetadata k.key "Content-Type" (guess k.key)])) := by
  constructor <;> intro hv <;>
    simp [analyseDispatch, analyseStep, hv, CacheControlAnalyser.optimiseEffects,
      ContentTypeAnalyser.optimiseEffects]

/-- C6 witness: the amended behaviour at a concrete redirect-marker object
with a mismatching Cache-Control header. -/
theorem C6_redirect_no_special_case_witness :
    analyseDispatch id id (.cacheControl "public, max-age=1") false Stats.zero
        { key := "r", cache_control := none, content_type := none,
          content_encoding := none, content_disposition := none,
          content_language := none, redirect := true,
          storedContent := [] } =
      ({ Stats.zero with total := 1, problematic := 1, changed := 1 },
       [Effect.changeMetadata "r" "Cache-Control" (some "public, max-age=1")]) := by
  have h := (C6_redirect_no_special_case id id "public, max-age=1"
    (fun _ => none)
    { key := "r", cache_control := none, content_type := none,
      content_encoding := none, content_disposition := none,
      content_language := none, redirect := true,
      storedContent := [] } Stats.zero rfl).1 rfl
  rw [h]
  rfl

/-- C7: when the external optimiser process fails, `optimise_external`
returns the failure sentinel `none` instead of raising across the boundary,
the JPEG/PNG content analyser treats the object as a reject (only `total`
is incremented: not problematic, not changed, no write emitted), and the
scan continues with the remaining keys exactly as if the object had been
skipped. -/
theorem C7_transform_failure (gunz gz : List Nat → List Nat)
    (exec : List String → List Nat → ExecResult) (max_quality : Int)
    (d : Bool) (s : Stats) (k : Key) (ks : List Key)
    (hfail : exec (jpegCmdArgs max_quality) (get_key_content gunz k) =
      .calledProcessError) :
    optimise_external exec (get_key_content gunz k) (jpegCmdArgs max_quality) =
        none ∧
      contentOptimiserAnalyse gunz gz
          (fun content => optimise_external exec content (jpegCmdArgs max_quality))
          d s k =
        ({ s with total := s.total + 1 }, []) ∧
      runKeys gunz gz
          (.contentSize (fun content =>
            optimise_external exec content (jpegCmdArgs max_quality)))
          d s (k :: ks) =
        runKeys gunz gz
          (.contentSize (fun content =>
            optimise_external exec content (jpegCmdArgs max_quality)))
          d { s with total := s.total + 1 } ks := by
  have h1 : optimise_external exec (get_key_content gunz k)
      (jpegCmdArgs max_quality) = none := by
    simp [optimise_external, hfail]
  have h2 : contentOptimiserAnalyse gunz gz
      (fun content => optimise_external exec content (jpegCmdArgs max_quality))
      d s k = ({ s with total := s.total + 1 }, []) := by
    simp only [contentOptimiserAnalyse]
    split
    · rfl
    · rw [h1]
  refine ⟨h1, h2, ?_⟩
  simp only [runKeys, analyseDispatch, h2, List.nil_append]

/-- C7 witness: a concrete invocation in which the external transform
fails. -/
theorem C7_transform_failure_witness :
    optimise_external (fun _ _ => ExecResult.calledProcessError) [1]
        (jpegCmdArgs 100) = none ∧
      contentOptimiserAnalyse id id
          (fun content => optimise_external (fun _ _ => ExecResult.calledProcessError)
            content (jpegCmdArgs 100)) false Stats.zero
          { key := "a.jpg", cache_control := none, content_type := none,
            content_encoding := none, content_disposition := none,
            content_language := none, redirect := false,
            storedContent := [1] } =
        ({ Stats.zero with total := 1 }, []) := by
  have h := C7_transform_failure id id (fun _ _ => ExecResult.calledProcessError)
    100 false Stats.zero
    { key := "a.jpg", cache_control := none, content_type := none,
      content_encoding := none, content_disposition := none,
      content_language := none, redirect := false,
      storedContent := [1] } [] rfl
  exact ⟨h.1, h.2.1⟩

/-- C8 (code bug): the claimed accept-and-persist behaviour of the Gzip
analyser is unreachable on the source as given: every non-empty object not
already transport-gzip-encoded reaches the trial-compression line
`util.gzip(original_content)` (analyser.py:214) and raises
`AttributeError` there — `util.py` defines no module-level `gzip` — so the
invocation aborts with only `total` incremented and no write emitted; the
accept decision, the content-encoding assignment and the encoding-aware
write the claim (and the spec, and the method's own comment at
analyser.py:219) describe are never executed. -/
theorem C8_gzip_attribute_error (gunz : List Nat → List Nat) (d : Bool)
    (s : Stats) (k : Key)
    (henc : ¬ k.content_encoding = some "gzip")
    (hne : ¬ get_key_content gunz k = []) :
    gzipAnalyseRun gunz d s k =
      .error ("AttributeError: module s3opt.util has no attribute gzip",
        { s with total := s.total + 1 }) := by
  simp only [gzipAnalyseRun]
  rw [if_neg henc, if_neg hne]

/-- C8 witness: the Gzip analyser raises at a concrete one-byte object with
no content-encoding, leaving only `total` incremented. -/
theorem C8_gzip_attribute_error_witness :
    gzipAnalyseRun id false Stats.zero
        { key := "a.css", cache_control := none, content_type := none,
          content_encoding := none, content_disposition := none,
          content_language := none, redirect := false,
          storedContent := [120] } =
      .error ("AttributeError: module s3opt.util has no attribute gzip",
        { Stats.zero with total := 1 }) := by
  rw [C8_gzip_attribute_error id false Stats.zero
    { key := "a.css", cache_control := none, content_type := none,
      content_encoding := none, content_disposition := none,
      content_language := none, redirect := false,
      storedContent := [120] } (by decide) (by decide)]
  rfl

theorem runKeys_dry_effects (gunz gz : List Nat → List Nat) (a : AnalyserKind)
    (ks : List Key) : ∀ s : Stats,
    (runKeys gunz gz a true s ks).2 = [] ∧
      (runKeys gunz gz a true s ks).1.changed = s.changed := by
  induction ks with
  | nil => exact fun s => ⟨rfl, rfl⟩
  | cons k ks ih =>
    intro s
    simp only [runKeys]
    obtain ⟨e0, c0, -, -, -, -⟩ := analyseDispatch_dry gunz gz a s k
    obtain ⟨eI, cI⟩ := ih (analyseDispatch gunz gz a true s k).1
    exact ⟨by rw [e0, eI]; rfl, by rw [cI, c0]⟩

theorem runKeys_dry_agrees (gunz gz : List Nat → List Nat) (a : AnalyserKind)
    (ks : List Key) : ∀ s : Stats,
    (runKeys gunz gz a true s ks).1.problematic =
        (runKeys gunz gz a false s ks).1.problematic ∧
      (runKeys gunz gz a true s ks).1.total =
        (runKeys gunz gz a false s ks).1.total ∧
      (runKeys gunz gz a true s ks).1.totalSize =
        (runKeys gunz gz a false s ks).1.totalSize ∧
      (runKeys gunz gz a true s ks).1.totalSaved =
        (runKeys gunz gz a false s ks).1.totalSaved := by
  induction ks with
  | nil => exact fun s => ⟨rfl, rfl, rfl, rfl⟩
  | cons k ks ih =>
    intro s
    simp only [runKeys]
    obtain ⟨-, -, ht0, hp0, hsz0, hsv0⟩ := analyseDispatch_dry gunz gz a s k
    obtain ⟨hp, ht, hsz, hsv⟩ := ih Stats.zero
    rw [runKeys_fst gunz gz a true (analyseDispatch gunz gz a true s k).1 ks,
        runKeys_fst gunz gz a false (analyseDispatch gunz gz a false s k).1 ks]
    simp [Stats.add, hp0, ht0, hsz0, hsv0, hp, ht, hsz, hsv]

/-- C2: for every analyser variant and every sequence of analysed objects,
with the dry-run flag set no mutating store operation is executed and the
`changed` counter stays 0, while verification still runs: `total`,
`problematic` and the content-size accumulators evolve exactly as in a
non-dry-run scan over the same objects. -/
theorem C2_dry_run_invariant (gunz gz : List Nat → List Nat)
    (a : AnalyserKind) (s0 : Stats) (ks : List Key) :
    (runKeys gunz gz a true (Analyser.start s0) ks).2 = [] ∧
    (runKeys gunz gz a true (Analyser.start s0) ks).1.changed = 0 ∧
    (runKeys gunz gz a true (Analyser.start s0) ks).1.problematic =
      (runKeys gunz gz a false (Analyser.start s0) ks).1.problematic ∧
    (runKeys gunz gz a true (Analyser.start s0) ks).1.total =
      (runKeys gunz gz a false (Analyser.start s0) ks).1.total ∧
    (runKeys gunz gz a true (Analyser.start s0) ks).1.totalSize =
      (runKeys gunz gz a false (Analyser.start s0) ks).1.totalSize ∧
    (runKeys gunz gz a true (Analyser.start s0) ks).1.totalSaved =
      (runKeys gunz gz a false (Analyser.start s0) ks).1.totalSaved := by
  obtain ⟨he, hc⟩ := runKeys_dry_effects gunz gz a ks (Analyser.start s0)
  obtain ⟨hp, ht, hsz, hsv⟩ := runKeys_dry_agrees gunz gz a ks (Analyser.start s0)
  exact ⟨he, hc, hp, ht, hsz, hsv⟩

theorem runSeq_invariant (gunz gz : List Nat → List Nat) (a : AnalyserKind)
    (steps : List (Key × Bool)) : ∀ s : Stats,
    s.changed ≤ s.problematic → s.problematic ≤ s.total →
    (runSeq gunz gz a s steps).changed ≤ (runSeq gunz gz a s steps).problematic ∧
      (runSeq gunz gz a s steps).problematic ≤ (runSeq gunz gz a s steps).total := by
  induction steps with
  | nil => exact fun s h1 h2 => ⟨h1, h2⟩
  | cons p rest ih =>
    intro s h1 h2
    obtain ⟨k, d⟩ := p
    simp only [runSeq]
    have hadd := (analyseDispatch_add gunz gz a d s k).1
    have hb := analyseDispatch_zero_bounds gunz gz a d k
    apply ih
    · rw [hadd]; simp only [Stats.add]; omega
    · rw [hadd]; simp only [Stats.add]; omega

/-- C10: after `start` and any sequence of `analyse` invocations with
arbitrary per-invocation dry-run flags, the counters satisfy
`changed ≤ problematic ≤ total`; moreover every single invocation
increments `changed` by at most as much as `problematic`, and `problematic`
by at most as much as `total`. -/
theorem C10_counter_invariant (gunz gz : List Nat → List Nat)
    (a : AnalyserKind) (s0 : Stats) (steps : List (Key × Bool)) :
    ((runSeq gunz gz a (Analyser.start s0) steps).changed ≤
        (runSeq gunz gz a (Analyser.start s0) steps).problematic ∧
      (runSeq gunz gz a (Analyser.start s0) steps).problematic ≤
        (runSeq gunz gz a (Analyser.start s0) steps).total) ∧
      ∀ (s : Stats) (k : Key) (d : Bool),
        (analyseDispatch gunz gz a d s k).1.changed + s.problematic ≤
            (analyseDispatch gunz gz a d s k).1.problematic + s.changed ∧
          (analyseDispatch gunz gz a d s k).1.problematic + s.total ≤
            (analyseDispatch gunz gz a d s k).1.total + s.problematic := by
  constructor
  · exact runSeq_invariant gunz gz a steps (Analyser.start s0)
      (Nat.le_refl 0) (Nat.le_refl 0)
  · intro s k d
    have hadd := (analyseDispatch_add gunz gz a d s k).1
    have hb := analyseDispatch_zero_bounds gunz gz a d k
    rw [hadd]
    simp only [Stats.add]
    omega

/-! ### Correctness of the derivative matcher against the declarative
matching relation. -/

theorem nullable_iff (ic : Bool) (r : Reg) :
    r.nullable = true ↔ Matches ic r [] := by
  induction r with
  | fail =>
    simp only [Reg.nullable, Bool.false_eq_true, false_iff]
    intro h; cases h
  | eps => simp only [Reg.nullable, true_iff]; exact Matches.eps
  | chr c =>
    simp only [Reg.nullable, Bool.false_eq_true, false_iff]
    intro h; cases h
  | dot =>
    simp only [Reg.nullable, Bool.false_eq_true, false_iff]
    intro h; cases h
  | seq r1 r2 ih1 ih2 =>
    simp only [Reg.nullable, Bool.and_eq_true, ih1, ih2]
    constructor
    · rintro ⟨h1, h2⟩; exact Matches.seq h1 h2
    · intro h
      generalize hw : ([] : List Char) = w at h
      cases h with
      | seq h1 h2 =>
        obtain ⟨hs1, hs2⟩ := List.append_eq_nil.mp hw.symm
        subst hs1; subst hs2
        exact ⟨h1, h2⟩
  | alt r1 r2 ih1 ih2 =>
    simp only [Reg.nullable, Bool.or_eq_true, ih1, ih2]
    constructor
    · rintro (h | h)
      · exact Matches.altL h
      · exact Matches.altR h
    · intro h
      cases h with
      | altL h => exact Or.inl h
      | altR h => exact Or.inr h
  | star r ih =>
    simp only [Reg.nullable, true_iff]
    exact Matches.starNil

theorem deriv_sound (ic : Bool) (c : Char) (r : Reg) :
    ∀ s : List Char, Matches ic (Reg.deriv ic r c) s → Matches ic r (c :: s) := by
  induction r with
  | fail => intro s h; cases h
  | eps => intro s h; cases h
  | chr p =>
    intro s h
    simp only [Reg.deriv] at h
    split at h
    next hc =>
      cases h
      exact Matches.chr hc
    next hc => cases h
  | dot =>
    intro s h
    simp only [Reg.deriv] at h
    cases h
    exact Matches.dot c
  | seq r1 r2 ih1 ih2 =>
    intro s h
    simp only [Reg.deriv] at h
    split at h
    next hn =>
      cases h with
      | altL h1 =>
        cases h1 with
        | seq hd h2 =>
          rename_i s1 s2
          rw [← List.cons_append]
          exact Matches.seq (ih1 s1 hd) h2
      | altR h2 =>
        have h0 : Matches ic r1 [] := (nullable_iff ic r1).mp hn
        exact Matches.seq h0 (ih2 s h2)
    next hn =>
      cases h with
      | seq hd h2 =>
        rename_i s1 s2
        rw [← List.cons_append]
        exact Matches.seq (ih1 s1 hd) h2
  | alt r1 r2 ih1 ih2 =>
    intro s h
    simp only [Reg.deriv] at h
    cases h with
    | altL h1 => exact Matches.altL (ih1 s h1)
    | altR h2 => exact Matches.altR (ih2 s h2)
  | star r ih =>
    intro s h
    simp only [Reg.deriv] at h
    cases h with
    | seq hd hs =>
      rename_i s1 s2
      rw [← List.cons_append]
      exact Matches.starApp (ih s1 hd) hs

theorem star_cons_inv {ic : Bool} {rr : Reg} {w : List Char}
    (h : Matches ic rr w) :
    ∀ (r : Reg) (c : Char) (s : List Char), rr = .star r → w = c :: s →
      ∃ s1 s2, s = s1 ++ s2 ∧ Matches ic r (c :: s1) ∧
        Matches ic (.star r) s2 := by
  induction h with
  | eps => intro r c s hr hw; cases hr
  | chr hc => intro r c s hr hw; cases hr
  | dot x => intro r c s hr hw; cases hr
  | seq h1 h2 ih1 ih2 => intro r c s hr hw; cases hr
  | altL h1 ih1 => intro r c s hr hw; cases hr
  | altR h2 ih2 => intro r c s hr hw; cases hr
  | starNil => intro r c s hr hw; cases hw
  | starApp h1 h2 ih1 ih2 =>
    intro r c s hr hw
    cases hr
    rename_i s1 s2
    cases s1 with
    | nil =>
      exact ih2 _ c s rfl hw
    | cons a t =>
      rw [List.cons_append] at hw
      injection hw with ha ht
      subst ha
      exact ⟨t, s2, ht.symm, h1, h2⟩

theorem deriv_complete (ic : Bool) (c : Char) (r : Reg) :
    ∀ s : List Char, Matches ic r (c :: s) → Matches ic (Reg.deriv ic r c) s := by
  induction r with
  | fail => intro s h; cases h
  | eps =>
    intro s h
    generalize hw : c :: s = w at h
    cases h
    cases hw
  | chr p =>
    intro s h
    generalize hw : c :: s = w at h
    cases h with
    | chr hc =>
      injection hw with ha ht
      subst ha
      subst ht
      simp only [Reg.deriv]
      rw [if_pos hc]
      exact Matches.eps
  | dot =>
    intro s h
    generalize hw : c :: s = w at h
    cases h with
    | dot x =>
      injection hw with ha ht
      subst ht
      simp only [Reg.deriv]
      exact Matches.eps
  | seq r1 r2 ih1 ih2 =>
    intro s h
    generalize hw : c :: s = w at h
    cases h with
    | seq h1 h2 =>
      rename_i s1 s2
      cases s1 with
      | nil =>
        have hn : r1.nullable = true := (nullable_iff ic r1).mpr h1
        simp only [Reg.deriv]
        rw [if_pos hn]
        rw [List.nil_append] at hw
        subst hw
        exact Matches.altR (ih2 s h2)
      | cons a t =>
        rw [List.cons_append] at hw
        injection hw with ha ht
        subst ha
        subst ht
        simp only [Reg.deriv]
        by_cases hn : r1.nullable = true
        · rw [if_pos hn]
          exact Matches.altL (Matches.seq (ih1 t h1) h2)
        · rw [if_neg hn]
          exact Matches.seq (ih1 t h1) h2
  | alt r1 r2 ih1 ih2 =>
    intro s h
    generalize hw : c :: s = w at h
    cases h with
    | altL h1 =>
      subst hw
      simp only [Reg.deriv]
      exact Matches.altL (ih1 s h1)
    | altR h2 =>
      subst hw
      simp only [Reg.deriv]
      exact Matches.altR (ih2 s h2)
  | star r ih =>
    intro s h
    obtain ⟨s1, s2, hs, hm, hrest⟩ := star_cons_inv h r c s rfl rfl
    subst hs
    simp only [Reg.deriv]
    exact Matches.seq (ih s1 hm) hrest

theorem rmatch_iff (ic : Bool) : ∀ (s : List Char) (r : Reg),
    Reg.rmatch ic r s = true ↔ Matches ic r s := by
  intro s
  induction s with
  | nil => intro r; exact nullable_iff ic r
  | cons c s ih =>
    intro r
    simp only [Reg.rmatch]
    rw [ih (Reg.deriv ic r c)]
    constructor
    · exact deriv_sound ic c r s
    · exact deriv_complete ic c r s

theorem pmatch_iff (ic : Bool) : ∀ (s : List Char) (r : Reg),
    Reg.pmatch ic r s = true ↔
      ∃ n, n ≤ s.length ∧ Matches ic r (List.take n s) := by
  intro s
  induction s with
  | nil =>
    intro r
    simp only [Reg.pmatch]
    rw [nullable_iff ic r]
    constructor
    · intro h; exact ⟨0, Nat.le_refl 0, h⟩
    · rintro ⟨n, -, h⟩
      rwa [List.take_nil] at h
  | cons c s ih =>
    intro r
    simp only [Reg.pmatch, Bool.or_eq_true]
    constructor
    · rintro (h | h)
      · exact ⟨0, Nat.zero_le _, (nullable_iff ic r).mp h⟩
      · obtain ⟨n, hn, hm⟩ := (ih (Reg.deriv ic r c)).mp h
        refine ⟨n + 1, by simpa using hn, ?_⟩
        rw [List.take_succ_cons]
        exact deriv_sound ic c r _ hm
    · rintro ⟨n, hn, hm⟩
      cases n with
      | zero =>
        rw [List.take_zero] at hm
        exact Or.inl ((nullable_iff ic r).mpr hm)
      | succ n =>
        rw [List.take_succ_cons] at hm
        refine Or.inr ((ih (Reg.deriv ic r c)).mpr ⟨n, ?_, ?_⟩)
        · simpa using hn
        · exact deriv_complete ic c r _ hm

/-- C3: for every rule table and every key, `analyse_key` applies exactly
the analysers whose compiled pattern matches the key, in registration
order, every matching rule applied (not only the first); the match is
anchored at the start of the key but need not extend to its end (a pattern
matching any prefix of the key suffices); and `append` compiles patterns
case-insensitively by default and registers rules at the end of the
table. -/
theorem C3_resolve_registration_order {α : Type}
    (rules : List (CompiledRule α)) (key : List Char) :
    analyse_key_applied rules key =
      (rules.filter fun rl => Reg.pmatch rl.ignoreCase rl.pattern key).map
        CompiledRule.analyser ∧
    (∀ (ic : Bool) (r : Reg), Reg.pmatch ic r key = true ↔
      ∃ n, n ≤ key.length ∧ Matches ic r (List.take n key)) ∧
    (∀ (pipe : List (CompiledRule α)) (a : α) (p : Reg),
      Pipeline.appendDefault pipe a p = Pipeline.append pipe a p true ∧
        Pipeline.append pipe a p true = pipe ++ [⟨p, true, a⟩]) := by
  refine ⟨?_, fun ic r => pmatch_iff ic key r, fun pipe a p => ⟨rfl, rfl⟩⟩
  induction rules with
  | nil => rfl
  | cons rl rls ih =>
    simp only [analyse_key_applied, List.filter_cons]
    by_cases h : Reg.pmatch rl.ignoreCase rl.pattern key = true
    · simp [h, ih]
    · simp only [h]
      simp [if_neg h, ih, Bool.of_not_eq_true h]

end S3Opt
